import Mathlib

/-!
# dsock `ipaddr.c`: address resolution

A shallow embedding of `src/ipaddr.c` (literal parsing, local interface
lookup, remote DNS lookup, port accessors) and theorems about it.

Conventions of the embedding.

* C `int` values (ports, modes, return codes, errno values) are `Int`.
* The caller's output buffer `ipaddr *addr` lives in `State.addr`; `none`
  stands for a NULL pointer.  A store through a NULL `addr` is `Outcome.undef`.
* `dsock_assert` (declared in `utils.h`) stops the process: `Outcome.abort`.
  `dsock_slow(x)` is a branch-prediction hint and is `x`.
* Everything the file consumes from outside (the `IPADDR_*` constants of
  `dsock.h`, `inet_pton`, `getifaddrs`, the DNS engine, `fdin`) is a field of `Env`.
* `ipaddr_local` is the branch compiled when `__sun` is not defined.
-/

namespace Dsock

/-! ## Platform constants (Linux values) -/

/-- Address family of IPv4 socket addresses. -/
def AF_INET : Int := 2
/-- Address family of IPv6 socket addresses. -/
def AF_INET6 : Int := 10
/-- No such file or directory: the end marker of `dns_ai_nextent`. -/
def ENOENT : Int := 2
/-- Try again. -/
def EAGAIN : Int := 11
/-- No such device. -/
def ENODEV : Int := 19
/-- Invalid argument. -/
def EINVAL : Int := 22
/-- Cannot assign requested address. -/
def EADDRNOTAVAIL : Int := 99
/-- Connection timed out: what `fdin` reports when the deadline expires. -/
def ETIMEDOUT : Int := 110

/-- The four bytes of `htonl(INADDR_ANY)`. -/
def INADDR_ANY : List Nat := [0, 0, 0, 0]
/-- The sixteen bytes of `in6addr_any`. -/
def in6addr_any : List Nat := List.replicate 16 0

/-! ## Data model -/

/-- A 16-bit quantity in network byte order, as the two bytes it occupies in memory. -/
structure be16 where
  hi : Nat
  lo : Nat
deriving DecidableEq, Repr

/-- The C `htons`: its argument is converted to `uint16_t` (reduction modulo `2^16`)
and laid out most significant byte first. -/
def htons (x : Int) : be16 :=
  let v := (x % 65536).toNat
  ⟨v / 256, v % 256⟩

/-- The C `ntohs`: the number spelled by two bytes in network order. -/
def ntohs (b : be16) : Int := ((b.hi * 256 + b.lo : Nat) : Int)

/-- The bytes of a `struct sockaddr_in` / `struct sockaddr_in6` that `ipaddr.c` touches.
`sin_port` and `sin6_port` name the same two bytes of the buffer, likewise
`sin_family`, `sin6_family` and `sa_family`; `host` is `sin_addr` (4 bytes) or
`sin6_addr` (16 bytes). -/
structure ipaddr where
  family : Int
  port : be16
  host : List Nat
deriving DecidableEq, Repr

/-- One node of the list `getifaddrs` returns; `ifa_addr` may be NULL. -/
structure ifaddrs where
  ifa_name : String
  ifa_addr : Option ipaddr
deriving DecidableEq, Repr

/-- One result entry of a DNS query. -/
structure addrinfo where
  ai_family : Int
  ai_addr : ipaddr
deriving DecidableEq, Repr

/-- What `inet_pton` did: its return value and the bytes it stored at `dst`
(stored only when the return value is 1). -/
structure PtonResult where
  rc : Int
  dst : List Nat
deriving DecidableEq, Repr

/-- One turn of the `while(1)` loop of `ipaddr_remote` as seen from outside:
`rc` is what `dns_ai_nextent(&it, ai)` returned and `it` the value of `it` after the
call; `pollfd` is `dns_ai_pollfd(ai)`, and `fdin deadline` is the return value of
`fdin(fd, deadline)` together with the value it left in `errno`. -/
structure DnsStep where
  rc : Int
  it : Option addrinfo
  pollfd : Int
  fdin : Int → Int × Int

/-- The world around `ipaddr.c`. The `IPADDR_*` fields are the constants of `dsock.h`.
The `dns_*` Boolean fields say whether the call returned a non-NULL object.
`dns_ai_open name port` is the query opened for `name` and the decimal string of
`port`: `none` for NULL, otherwise the answers successive `dns_ai_nextent` calls
give; a query whose answers are used up answers `ENOENT`. -/
structure Env where
  IPADDR_IPV4 : Int
  IPADDR_IPV6 : Int
  IPADDR_PREF_IPV4 : Int
  IPADDR_PREF_IPV6 : Int
  inet_pton : Int → String → PtonResult
  getifaddrs : Int × List ifaddrs
  dns_resconf_local : Bool
  dns_hosts_local : Bool
  dns_hints_local : Bool
  dns_res_open : Bool
  dns_ai_open : String → Int → Option (List DnsStep)

/-- The case labels of `switch(mode)` are pairwise distinct, as C requires of a
`switch` that compiles (listed in the order of the source). -/
def Env.labels_distinct (E : Env) : Prop :=
  [E.IPADDR_IPV4, E.IPADDR_IPV6, 0, E.IPADDR_PREF_IPV4, E.IPADDR_PREF_IPV6].Nodup

instance (E : Env) : Decidable E.labels_distinct := by
  unfold Env.labels_distinct; infer_instance

/-- The memory `ipaddr.c` reads and writes: the caller's buffer `*addr` (`none`: the
caller passed NULL), `errno`, the three file-level statics (`true`: non-NULL), and the
number of DNS queries (`struct dns_addrinfo`) opened and not yet closed. -/
structure State where
  addr : Option ipaddr
  errno : Int
  dsock_dns_conf : Bool
  dsock_dns_hosts : Bool
  dsock_dns_hints : Bool
  queries : Nat
deriving DecidableEq, Repr

/-- Modelled from the spec: what a failed `dsock_assert` does. The macro is declared in
`utils.h`, which is not among the sources; the specification calls a violated
assertion fatal, not a recoverable failure, so the call ends there (`abort`).
Otherwise a call returns `rc` in state `s`, or stores through a NULL `addr`
(`undef`). -/
inductive Outcome where
  | ret (rc : Int) (s : State)
  | abort
  | undef
deriving DecidableEq, Repr

/-! ## `ipaddr.c` -/

/-- Lines 57-74. -/
def ipaddr_ipany (E : Env) (s : State) (port mode : Int) : Outcome :=
  if port < 0 ∨ port > 0xffff then .ret (-1) { s with errno := EINVAL }
  else if mode = 0 ∨ mode = E.IPADDR_IPV4 ∨ mode = E.IPADDR_PREF_IPV4 then
    match s.addr with
    | none => .undef
    | some _ => .ret 0 { s with addr := some ⟨AF_INET, htons port, INADDR_ANY⟩ }
  else
    match s.addr with
    | none => .undef
    | some _ => .ret 0 { s with addr := some ⟨AF_INET6, htons port, in6addr_any⟩ }

/-- Lines 77-85. `inet_pton` stores the four bytes through `addr` when it returns 1. -/
def ipaddr_ipv4_literal (E : Env) (s : State) (name : String) (port : Int) : Outcome :=
  let r := E.inet_pton AF_INET name
  if ¬ (r.rc ≥ 0) then .abort
  else if r.rc ≠ 1 then .ret (-1) { s with errno := EINVAL }
  else
    match s.addr with
    | none => .undef
    | some _ => .ret 0 { s with addr := some ⟨AF_INET, htons port, r.dst⟩ }

/-- Lines 88-96. `inet_pton` stores the sixteen bytes through `addr` when it returns 1. -/
def ipaddr_ipv6_literal (E : Env) (s : State) (name : String) (port : Int) : Outcome :=
  let r := E.inet_pton AF_INET6 name
  if ¬ (r.rc ≥ 0) then .abort
  else if r.rc ≠ 1 then .ret (-1) { s with errno := EINVAL }
  else
    match s.addr with
    | none => .undef
    | some _ => .ret 0 { s with addr := some ⟨AF_INET6, htons port, r.dst⟩ }

/-- Lines 99-124. -/
def ipaddr_literal (E : Env) (s : State) (name : String) (port mode : Int) : Outcome :=
  if s.addr = none ∨ port < 0 ∨ port > 0xffff then .ret (-1) { s with errno := EINVAL }
  else if mode = E.IPADDR_IPV4 then ipaddr_ipv4_literal E s name port
  else if mode = E.IPADDR_IPV6 then ipaddr_ipv6_literal E s name port
  else if mode = 0 ∨ mode = E.IPADDR_PREF_IPV4 then
    match ipaddr_ipv4_literal E s name port with
    | .ret rc s1 => if rc = 0 then .ret 0 s1 else ipaddr_ipv6_literal E s1 name port
    | .abort => .abort
    | .undef => .undef
  else if mode = E.IPADDR_PREF_IPV6 then
    match ipaddr_ipv6_literal E s name port with
    | .ret rc s1 => if rc = 0 then .ret 0 s1 else ipaddr_ipv4_literal E s1 name port
    | .abort => .abort
    | .undef => .undef
  else .abort

/-- Lines 126-128. -/
def ipaddr_family (a : ipaddr) : Int := a.family

/-- Lines 139-143. -/
def ipaddr_port (a : ipaddr) : Int :=
  ntohs (if ipaddr_family a = AF_INET then a.port else a.port)

/-- Lines 145-150. -/
def ipaddr_setport (a : ipaddr) (port : Int) : ipaddr :=
  if ipaddr_family a = AF_INET then { a with port := htons port }
  else { a with port := htons port }

/-- The loop of lines 182-199, started with the candidates found so far; `none` when
one of the two `dsock_assert`s in the loop body fails. -/
def ipaddr_local_scan (name : String) :
    List ifaddrs → Option ifaddrs → Option ifaddrs → Option (Option ifaddrs × Option ifaddrs)
  | [], ipv4, ipv6 => some (ipv4, ipv6)
  | it :: rest, ipv4, ipv6 =>
    match it.ifa_addr with
    | none => ipaddr_local_scan name rest ipv4 ipv6
    | some sa =>
      if it.ifa_name ≠ name then ipaddr_local_scan name rest ipv4 ipv6
      else
        let after_switch : Option (Option ifaddrs × Option ifaddrs) :=
          if sa.family = AF_INET then
            (if ipv4.isSome then none else some (some it, ipv6))
          else if sa.family = AF_INET6 then
            (if ipv6.isSome then none else some (ipv4, some it))
          else some (ipv4, ipv6)
        match after_switch with
        | none => none
        | some (ipv4, ipv6) =>
          if ipv4.isSome ∧ ipv6.isSome then some (ipv4, ipv6)
          else ipaddr_local_scan name rest ipv4 ipv6

/-- The `switch(mode)` of lines 201-219, repeated verbatim at lines 296-314: the two
candidates after it, or `none` when the `default:` assertion fails. -/
def mode_switch {α : Type} (E : Env) (mode : Int) (ipv4 ipv6 : Option α) :
    Option (Option α × Option α) :=
  if mode = E.IPADDR_IPV4 then some (ipv4, none)
  else if mode = E.IPADDR_IPV6 then some (none, ipv6)
  else if mode = 0 ∨ mode = E.IPADDR_PREF_IPV4 then
    some (ipv4, if ipv4.isSome then none else ipv6)
  else if mode = E.IPADDR_PREF_IPV6 then
    some (if ipv6.isSome then none else ipv4, ipv6)
  else none

/-- Lines 220-236, and again lines 315-331: copy the chosen socket address into
`*addr` and set its port, or fail with `err`. The `memcpy` copies family, port and
host bytes and the port is overwritten right after. `src` reads the socket address
of a candidate (`ifa_addr`, `ai_addr`), `release` is the call that gives the list or
the query back (`freeifaddrs`, `dns_ai_close`), made on each of the three paths. -/
def store_choice {α : Type} (src : α → Option ipaddr) (release : State → State)
    (s : State) (port : Int) (err : Int) (ipv4 ipv6 : Option α) : Outcome :=
  match ipv4 with
  | some c =>
    (match src c, s.addr with
     | some sa, some _ => .ret 0 (release { s with addr := some { sa with port := htons port } })
     | _, _ => .undef)
  | none =>
    match ipv6 with
    | some c =>
      (match src c, s.addr with
       | some sa, some _ => .ret 0 (release { s with addr := some { sa with port := htons port } })
       | _, _ => .undef)
    | none => .ret (-1) { release s with errno := err }

/-- Lines 200-236, and again lines 296-331: the selection `switch` and then the
copy-out. -/
def choose_and_store {α : Type} (E : Env) (mode : Int) (src : α → Option ipaddr)
    (release : State → State) (s : State) (port : Int) (err : Int)
    (ipv4 ipv6 : Option α) : Outcome :=
  match mode_switch E mode ipv4 ipv6 with
  | none => .abort
  | some (ipv4, ipv6) => store_choice src release s port err ipv4 ipv6

/-- Lines 164-238. The list of `getifaddrs` is not counted in the state; it is freed
on each of the three returning paths. -/
def ipaddr_local (E : Env) (s : State) (name : Option String) (port mode : Int) : Outcome :=
  match name with
  | none => ipaddr_ipany E s port mode
  | some name =>
    match ipaddr_literal E s name port mode with
    | .abort => .abort
    | .undef => .undef
    | .ret rc s1 =>
      if rc = 0 then .ret 0 s1
      else if ¬ (E.getifaddrs.1 = 0) then .abort
      else if E.getifaddrs.2 = [] then .abort
      else
        match ipaddr_local_scan name E.getifaddrs.2 none none with
        | none => .abort
        | some (ipv4, ipv6) =>
          choose_and_store E mode (fun i => i.ifa_addr) id s1 port ENODEV ipv4 ipv6

/-- Lines 246-254: load the DNS configuration unless it is cached; `none` when one
of the three assertions fails. -/
def load_dns_conf (E : Env) (s : State) : Option State :=
  if ¬ s.dsock_dns_conf then
    if ¬ E.dns_resconf_local then none
    else if ¬ E.dns_hosts_local then none
    else if ¬ E.dns_hints_local then none
    else some { s with dsock_dns_conf := true, dsock_dns_hosts := true,
                       dsock_dns_hints := true }
  else some s

/-- How the `while(1)` loop of lines 272-295 ends. -/
inductive LoopEnd where
  | brk (ipv4 ipv6 : Option addrinfo) (s : State)
  | ret (rc : Int) (s : State)
  | abort

/-- Lines 272-295, one list element per turn of the loop. -/
def dns_loop (deadline : Int) :
    List DnsStep → State → Option addrinfo → Option addrinfo → LoopEnd
  | [], s, ipv4, ipv6 => .brk ipv4 ipv6 s
  | st :: rest, s, ipv4, ipv6 =>
    if st.rc = EAGAIN then
      if ¬ (st.pollfd ≥ 0) then .abort
      else
        let s1 := { s with errno := (st.fdin deadline).2 }
        if (st.fdin deadline).1 < 0 then .ret (-1) s1
        else dns_loop deadline rest s1 ipv4 ipv6
    else if st.rc = ENOENT then .brk ipv4 ipv6 s
    else
      let ipv4 := match ipv4, st.it with
        | none, some e => if e.ai_family = AF_INET then some e else none
        | v, _ => v
      let ipv6 := match ipv6, st.it with
        | none, some e => if e.ai_family = AF_INET6 then some e else none
        | v, _ => v
      if ipv4.isSome ∧ ipv6.isSome then .brk ipv4 ipv6 s
      else dns_loop deadline rest s ipv4 ipv6

/-- The call `dns_ai_close(ai)`. -/
def dns_ai_close (s : State) : State := { s with queries := s.queries - 1 }

/-- Lines 240-332. The resolver handle of line 256 is given back on line 268 and is
not counted in the state. -/
def ipaddr_remote (E : Env) (s : State) (name : String) (port mode : Int)
    (deadline : Int) : Outcome :=
  match ipaddr_literal E s name port mode with
  | .abort => .abort
  | .undef => .undef
  | .ret rc s1 =>
    if rc = 0 then .ret 0 s1
    else
      match load_dns_conf E s1 with
      | none => .abort
      | some s2 =>
        if ¬ E.dns_res_open then .abort
        else if ¬ (port ≥ 0 ∧ port ≤ 0xffff) then .abort
        else
          match E.dns_ai_open name port with
          | none => .abort
          | some answers =>
            let s3 := { s2 with queries := s2.queries + 1 }
            match dns_loop deadline answers s3 none none with
            | .abort => .abort
            | .ret rc s4 => .ret rc s4
            | .brk ipv4 ipv6 s4 =>
              choose_and_store E mode (fun e => some e.ai_addr) dns_ai_close s4 port
                EADDRNOTAVAIL ipv4 ipv6

/-! ## The specification's vocabulary -/

/-- The five valid modes, by the names the specification gives them. -/
inductive Mode where
  | Unspecified
  | ForceIPv4
  | ForceIPv6
  | PreferIPv4
  | PreferIPv6
deriving DecidableEq, Repr

/-- The C value of a mode. -/
def Mode.code (E : Env) : Mode → Int
  | .Unspecified => 0
  | .ForceIPv4 => E.IPADDR_IPV4
  | .ForceIPv6 => E.IPADDR_IPV6
  | .PreferIPv4 => E.IPADDR_PREF_IPV4
  | .PreferIPv6 => E.IPADDR_PREF_IPV6

/-- A mode value is valid when it is the C value of one of the five modes. -/
def Env.valid_mode (E : Env) (mode : Int) : Prop :=
  mode = 0 ∨ mode = E.IPADDR_IPV4 ∨ mode = E.IPADDR_IPV6 ∨
    mode = E.IPADDR_PREF_IPV4 ∨ mode = E.IPADDR_PREF_IPV6

/-- The selection table of the specification (section 4.4, step 5), row by row, with
the columns both / only IPv4 / only IPv6 / neither; `none` is the table's "fail". -/
def spec_select {α : Type} : Mode → Option α → Option α → Option α
  | .ForceIPv4, some v4, some _ => some v4
  | .ForceIPv4, some v4, none => some v4
  | .ForceIPv4, none, some _ => none
  | .ForceIPv4, none, none => none
  | .ForceIPv6, some _, some v6 => some v6
  | .ForceIPv6, some _, none => none
  | .ForceIPv6, none, some v6 => some v6
  | .ForceIPv6, none, none => none
  | .Unspecified, some v4, some _ => some v4
  | .Unspecified, some v4, none => some v4
  | .Unspecified, none, some v6 => some v6
  | .Unspecified, none, none => none
  | .PreferIPv4, some v4, some _ => some v4
  | .PreferIPv4, some v4, none => some v4
  | .PreferIPv4, none, some v6 => some v6
  | .PreferIPv4, none, none => none
  | .PreferIPv6, some _, some v6 => some v6
  | .PreferIPv6, some v4, none => some v4
  | .PreferIPv6, none, some v6 => some v6
  | .PreferIPv6, none, none => none

/-- The numeric parse of one family as a partial function: the bytes when
`inet_pton` accepts the string. -/
def parse (E : Env) (af : Int) (name : String) : Option (List Nat) :=
  if (E.inet_pton af name).rc = 1 then some (E.inet_pton af name).dst else none

/-- The literal parser as section 4.2 of the specification words it: the family and
host bytes of the literal, `none` for `InvalidArgument`. -/
def spec_literal (m : Mode) (p4 p6 : Option (List Nat)) : Option (Int × List Nat) :=
  match m with
  | .ForceIPv4 => p4.map (fun b => (AF_INET, b))
  | .ForceIPv6 => p6.map (fun b => (AF_INET6, b))
  | .Unspecified | .PreferIPv4 =>
    (match p4 with
     | some b => some (AF_INET, b)
     | none => p6.map (fun b => (AF_INET6, b)))
  | .PreferIPv6 =>
    (match p6 with
     | some b => some (AF_INET6, b)
     | none => p4.map (fun b => (AF_INET, b)))

/-- The node `i` carries an address of family `af` for the interface `name`. -/
def ifa_match (name : String) (af : Int) (i : ifaddrs) : Bool :=
  match i.ifa_addr with
  | none => false
  | some sa => decide (i.ifa_name = name ∧ sa.family = af)

/-- The entry an answer carries: answers with return value 0 carry one. -/
def DnsStep.entry? (st : DnsStep) : Option addrinfo :=
  if st.rc = 0 then st.it else none

/-- The first entry of family `af` in a sequence of answers. -/
def first_entry (af : Int) (answers : List DnsStep) : Option addrinfo :=
  (answers.filterMap DnsStep.entry?).find? (fun e => decide (e.ai_family = af))

/-- An answer "try again" whose wait on a valid descriptor succeeds. -/
def DnsStep.again_ok (deadline : Int) (st : DnsStep) : Prop :=
  st.rc = EAGAIN ∧ 0 ≤ st.pollfd ∧ 0 ≤ (st.fdin deadline).1

/-- An answer that carries an entry of family IPv4 or IPv6, whose socket address has
the family of the entry. -/
def DnsStep.is_entry (st : DnsStep) : Prop :=
  st.rc = 0 ∧ ∃ e, st.it = some e ∧ (e.ai_family = AF_INET ∨ e.ai_family = AF_INET6) ∧
    e.ai_addr.family = e.ai_family

/-! ## A concrete machine -/

/-- A numeric parser that knows two literals. -/
def sample_pton (af : Int) (name : String) : PtonResult :=
  if af = AF_INET ∧ name = "127.0.0.1" then ⟨1, [127, 0, 0, 1]⟩
  else if af = AF_INET6 ∧ name = "::1" then ⟨1, List.replicate 15 0 ++ [1]⟩
  else ⟨0, []⟩

/-- The loopback IPv4 socket address with port 0. -/
def lo4 : ipaddr := ⟨AF_INET, ⟨0, 0⟩, [127, 0, 0, 1]⟩
/-- The loopback IPv6 socket address with port 0. -/
def lo6 : ipaddr := ⟨AF_INET6, ⟨0, 0⟩, List.replicate 15 0 ++ [1]⟩
/-- An IPv4 socket address of a remote host. -/
def host4 : ipaddr := ⟨AF_INET, ⟨0, 80⟩, [93, 184, 216, 34]⟩
/-- An IPv6 socket address of a remote host. -/
def host6 : ipaddr := ⟨AF_INET6, ⟨0, 80⟩, [38, 6, 40, 0, 2, 32, 0, 1, 2, 72, 24, 147, 37, 200, 25, 70]⟩

/-- The answer "try again" on descriptor 5, with a wait that succeeds. -/
def again_ok : DnsStep := ⟨EAGAIN, none, 5, fun _ => (0, 0)⟩
/-- The answer "try again" on descriptor 5, with a wait that times out. -/
def again_timeout : DnsStep := ⟨EAGAIN, none, 5, fun _ => (-1, ETIMEDOUT)⟩
/-- An answer carrying the entry `e`. -/
def entry (e : addrinfo) : DnsStep := ⟨0, some e, 5, fun _ => (0, 0)⟩

/-- A machine with the constants of `dsock.h`, a loopback interface with one address
of each family, an interface `eth0` with an IPv4 address only, and a DNS that knows
`example.org` and never answers for `slow.example`. -/
def sample_env : Env where
  IPADDR_IPV4 := 1
  IPADDR_IPV6 := 2
  IPADDR_PREF_IPV4 := 3
  IPADDR_PREF_IPV6 := 4
  inet_pton := sample_pton
  getifaddrs := (0, [⟨"lo", some lo4⟩, ⟨"lo", some lo6⟩, ⟨"eth0", none⟩,
    ⟨"eth0", some ⟨AF_INET, ⟨0, 0⟩, [192, 168, 0, 2]⟩⟩])
  dns_resconf_local := true
  dns_hosts_local := true
  dns_hints_local := true
  dns_res_open := true
  dns_ai_open := fun name _ =>
    if name = "example.org" then
      some [again_ok, entry ⟨AF_INET6, host6⟩, again_ok, entry ⟨AF_INET, host4⟩,
        entry ⟨AF_INET, lo4⟩]
    else if name = "slow.example" then some [again_timeout]
    else some []

/-- A caller's state: a zeroed buffer, no configuration loaded, no query open. -/
def sample_state : State := ⟨some ⟨0, ⟨0, 0⟩, []⟩, 0, false, false, false, 0⟩

/-! ## Theorems -/

theorem ntohs_htons (p : Int) (h0 : 0 ≤ p) (h1 : p ≤ 65535) : ntohs (htons p) = p := by
  unfold ntohs htons
  have h : p % 65536 = p := Int.emod_eq_of_lt h0 (by omega)
  simp only [h]
  have h2 : (p.toNat : Int) = p := Int.toNat_of_nonneg h0
  have h3 : p.toNat / 256 * 256 + p.toNat % 256 = p.toNat := Nat.div_add_mod' _ _
  rw [h3, h2]

/-- C5. Port round trip: for every address and every port in [0, 65535],
`ipaddr_port` read after `ipaddr_setport` returns the port, and `ipaddr_setport`
leaves the family and the host bytes unchanged. -/
theorem ipaddr_port_setport (a : ipaddr) (p : Int) (h0 : 0 ≤ p) (h1 : p ≤ 65535) :
    ipaddr_port (ipaddr_setport a p) = p ∧
    ipaddr_family (ipaddr_setport a p) = ipaddr_family a ∧
    (ipaddr_setport a p).host = a.host := by
  refine ⟨?_, ?_, ?_⟩
  · unfold ipaddr_port ipaddr_setport
    split <;> simp [ntohs_htons p h0 h1]
  · unfold ipaddr_setport ipaddr_family; split <;> rfl
  · unfold ipaddr_setport; split <;> rfl

theorem ipaddr_port_setport_witness :
    (0 : Int) ≤ 8080 ∧ (8080 : Int) ≤ 65535 ∧
    ipaddr_port (ipaddr_setport host6 8080) = 8080 ∧
    ipaddr_family (ipaddr_setport host6 8080) = ipaddr_family host6 ∧
    (ipaddr_setport host6 8080).host = host6.host :=
  ⟨by decide, by decide, ipaddr_port_setport host6 8080 (by decide) (by decide)⟩

/-- C6. For every string and every mode value, `ipaddr_literal` called with a port
below 0 or above 65535, or with a NULL output address, returns -1 with `errno` set to
`EINVAL` and changes nothing else: the output address is not written. -/
theorem ipaddr_literal_bad_port (E : Env) (s : State) (name : String) (port mode : Int)
    (h : port < 0 ∨ 65535 < port ∨ s.addr = none) :
    ipaddr_literal E s name port mode = .ret (-1) { s with errno := EINVAL } := by
  unfold ipaddr_literal
  have : s.addr = none ∨ port < 0 ∨ port > 0xffff := by
    rcases h with h | h | h
    · exact Or.inr (Or.inl h)
    · exact Or.inr (Or.inr h)
    · exact Or.inl h
  rw [if_pos this]

theorem ipaddr_literal_bad_port_witness :
    ((70000 : Int) < 0 ∨ (65535 : Int) < 70000 ∨ sample_state.addr = none) ∧
    ipaddr_literal sample_env sample_state "127.0.0.1" 70000 7 =
      .ret (-1) { sample_state with errno := EINVAL } :=
  ⟨by decide, ipaddr_literal_bad_port sample_env sample_state "127.0.0.1" 70000 7 (by decide)⟩

/-- The ten inequalities between the five case labels. -/
theorem Env.labels_ne (E : Env) (hE : E.labels_distinct) :
    E.IPADDR_IPV4 ≠ E.IPADDR_IPV6 ∧ E.IPADDR_IPV4 ≠ 0 ∧
    E.IPADDR_IPV4 ≠ E.IPADDR_PREF_IPV4 ∧ E.IPADDR_IPV4 ≠ E.IPADDR_PREF_IPV6 ∧
    E.IPADDR_IPV6 ≠ 0 ∧ E.IPADDR_IPV6 ≠ E.IPADDR_PREF_IPV4 ∧
    E.IPADDR_IPV6 ≠ E.IPADDR_PREF_IPV6 ∧ (0 : Int) ≠ E.IPADDR_PREF_IPV4 ∧
    (0 : Int) ≠ E.IPADDR_PREF_IPV6 ∧ E.IPADDR_PREF_IPV4 ≠ E.IPADDR_PREF_IPV6 := by
  unfold Env.labels_distinct at hE
  simp only [List.nodup_cons, List.mem_cons, List.mem_singleton, not_or,
    List.not_mem_nil, not_false_eq_true, List.nodup_nil, and_true] at hE
  obtain ⟨⟨a1, a2, a3, a4⟩, ⟨b1, b2, b3⟩, ⟨c1, c2⟩, d1⟩ := hE
  exact ⟨a1, a2, a3, a4, b1, b2, b3, c1, c2, d1⟩

theorem sample_env_labels : sample_env.labels_distinct := by decide

/-- C4. With an absent name, a valid mode and a port in [0, 65535], `ipaddr_local`
returns 0 and leaves in the output address the wildcard with the given port:
`0.0.0.0`, family IPv4, for Unspecified, ForceIPv4 and PreferIPv4; `::`, family IPv6,
for ForceIPv6 and PreferIPv6. -/
theorem ipaddr_local_absent_name (E : Env) (s : State) (a : ipaddr) (port : Int) (m : Mode)
    (hE : E.labels_distinct) (ha : s.addr = some a) (h0 : 0 ≤ port) (h1 : port ≤ 65535) :
    ∃ w : ipaddr,
      ipaddr_local E s none port (m.code E) = .ret 0 { s with addr := some w } ∧
      ipaddr_port w = port ∧
      ((m = .Unspecified ∨ m = .ForceIPv4 ∨ m = .PreferIPv4) →
        ipaddr_family w = AF_INET ∧ w.host = [0, 0, 0, 0]) ∧
      ((m = .ForceIPv6 ∨ m = .PreferIPv6) →
        ipaddr_family w = AF_INET6 ∧
          w.host = [0, 0, 0, 0, 0, 0, 0, 0, 0, 0, 0, 0, 0, 0, 0, 0]) := by
  obtain ⟨a1, a2, a3, a4, b1, b2, b3, c1, c2, d1⟩ := E.labels_ne hE
  have hp : ¬ (port < 0 ∨ port > 0xffff) := by omega
  have hrt := ntohs_htons port h0 h1
  cases m
  case ForceIPv6 =>
    refine ⟨⟨AF_INET6, htons port, in6addr_any⟩, ?_, ?_, ?_, ?_⟩
    · simp only [ipaddr_local, ipaddr_ipany, Mode.code, if_neg hp, ha]
      rw [if_neg (by simp [b1, a1.symm, b2])]
    · simp [ipaddr_port, hrt]
    · simp
    · intro _; exact ⟨rfl, rfl⟩
  case PreferIPv6 =>
    refine ⟨⟨AF_INET6, htons port, in6addr_any⟩, ?_, ?_, ?_, ?_⟩
    · simp only [ipaddr_local, ipaddr_ipany, Mode.code, if_neg hp, ha]
      rw [if_neg (by simp [c2.symm, a4.symm, d1.symm])]
    · simp [ipaddr_port, hrt]
    · simp
    · intro _; exact ⟨rfl, rfl⟩
  all_goals
    refine ⟨⟨AF_INET, htons port, INADDR_ANY⟩, ?_, ?_, ?_, ?_⟩
    · simp [ipaddr_local, ipaddr_ipany, Mode.code, if_neg hp, ha]
    · simp [ipaddr_port, hrt]
    · intro _; exact ⟨rfl, rfl⟩
    · simp

theorem ipaddr_local_absent_name_witness :
    sample_env.labels_distinct ∧ sample_state.addr = some ⟨0, ⟨0, 0⟩, []⟩ ∧
    ∃ w : ipaddr,
      ipaddr_local sample_env sample_state none 8080 (Mode.Unspecified.code sample_env) =
        .ret 0 { sample_state with addr := some w } ∧
      ipaddr_port w = 8080 ∧
      ((Mode.Unspecified = .Unspecified ∨ Mode.Unspecified = .ForceIPv4 ∨
          Mode.Unspecified = .PreferIPv4) →
        ipaddr_family w = AF_INET ∧ w.host = [0, 0, 0, 0]) ∧
      ((Mode.Unspecified = .ForceIPv6 ∨ Mode.Unspecified = .PreferIPv6) →
        ipaddr_family w = AF_INET6 ∧
          w.host = [0, 0, 0, 0, 0, 0, 0, 0, 0, 0, 0, 0, 0, 0, 0, 0]) :=
  ⟨by decide, rfl,
    ipaddr_local_absent_name sample_env sample_state ⟨0, ⟨0, 0⟩, []⟩ 8080 .Unspecified
      (by decide) rfl (by decide) (by decide)⟩

/-- The IPv4 parse of `ipaddr_ipv4_literal` on a non-NULL buffer, when `inet_pton`
does not report an unsupported family. -/
theorem ipaddr_ipv4_literal_eq (E : Env) (s : State) (a : ipaddr) (name : String)
    (port : Int) (ha : s.addr = some a) (h4 : 0 ≤ (E.inet_pton AF_INET name).rc) :
    ipaddr_ipv4_literal E s name port =
      match parse E AF_INET name with
      | some b => .ret 0 { s with addr := some ⟨AF_INET, htons port, b⟩ }
      | none => .ret (-1) { s with errno := EINVAL } := by
  unfold ipaddr_ipv4_literal parse
  by_cases h : (E.inet_pton AF_INET name).rc = 1 <;> simp [h, h4, ha]

/-- The IPv6 parse of `ipaddr_ipv6_literal` on a non-NULL buffer, when `inet_pton`
does not report an unsupported family. -/
theorem ipaddr_ipv6_literal_eq (E : Env) (s : State) (a : ipaddr) (name : String)
    (port : Int) (ha : s.addr = some a) (h6 : 0 ≤ (E.inet_pton AF_INET6 name).rc) :
    ipaddr_ipv6_literal E s name port =
      match parse E AF_INET6 name with
      | some b => .ret 0 { s with addr := some ⟨AF_INET6, htons port, b⟩ }
      | none => .ret (-1) { s with errno := EINVAL } := by
  unfold ipaddr_ipv6_literal parse
  by_cases h : (E.inet_pton AF_INET6 name).rc = 1 <;> simp [h, h6, ha]

/-- The `switch` of `ipaddr_literal` at the C value of each of the five modes. -/
theorem ipaddr_literal_code (E : Env) (s : State) (name : String) (port : Int) (m : Mode)
    (hE : E.labels_distinct) (hp : ¬ (s.addr = none ∨ port < 0 ∨ port > 0xffff)) :
    ipaddr_literal E s name port (m.code E) =
      match m with
      | .ForceIPv4 => ipaddr_ipv4_literal E s name port
      | .ForceIPv6 => ipaddr_ipv6_literal E s name port
      | .Unspecified | .PreferIPv4 =>
        (match ipaddr_ipv4_literal E s name port with
         | .ret rc s1 => if rc = 0 then .ret 0 s1 else ipaddr_ipv6_literal E s1 name port
         | .abort => .abort
         | .undef => .undef)
      | .PreferIPv6 =>
        (match ipaddr_ipv6_literal E s name port with
         | .ret rc s1 => if rc = 0 then .ret 0 s1 else ipaddr_ipv4_literal E s1 name port
         | .abort => .abort
         | .undef => .undef) := by
  obtain ⟨a1, a2, a3, a4, b1, b2, b3, c1, c2, d1⟩ := E.labels_ne hE
  unfold ipaddr_literal
  rw [if_neg hp]
  cases m <;>
    simp [Mode.code, a1, a2, a3, a4, b1, b2, b3, c1, c2, d1, a1.symm, a2.symm, a3.symm,
      a4.symm, b1.symm, b2.symm, b3.symm, c1.symm, c2.symm, d1.symm]

/-- C2. On a non-NULL output address, with a port in [0, 65535] and a valid mode,
and with the two numeric parses taken as partial functions, `ipaddr_literal` does what
section 4.2 says: ForceIPv4 the IPv4 parse only, ForceIPv6 the IPv6 parse only,
Unspecified and PreferIPv4 the IPv4 parse and on its failure the IPv6 parse,
PreferIPv6 the IPv6 parse and on its failure the IPv4 parse. It returns 0 with the
family and bytes of the parse that succeeded and the given port, and returns -1 with
`EINVAL`, the output address untouched, exactly when no parse the mode allows
succeeds. -/
theorem ipaddr_literal_modes (E : Env) (s : State) (a : ipaddr) (name : String)
    (port : Int) (m : Mode) (hE : E.labels_distinct) (ha : s.addr = some a)
    (h0 : 0 ≤ port) (h1 : port ≤ 65535)
    (h4 : 0 ≤ (E.inet_pton AF_INET name).rc) (h6 : 0 ≤ (E.inet_pton AF_INET6 name).rc) :
    match spec_literal m (parse E AF_INET name) (parse E AF_INET6 name) with
    | some (fam, bytes) =>
      ∃ s1, ipaddr_literal E s name port (m.code E) = .ret 0 s1 ∧
        s1.addr = some ⟨fam, htons port, bytes⟩ ∧
        ipaddr_port ⟨fam, htons port, bytes⟩ = port
    | none => ipaddr_literal E s name port (m.code E) = .ret (-1) { s with errno := EINVAL } := by
  have hp : ¬ (s.addr = none ∨ port < 0 ∨ port > 0xffff) := by
    rw [ha]; simp; omega
  have hrt := ntohs_htons port h0 h1
  have hport : ∀ fam bytes, ipaddr_port ⟨fam, htons port, bytes⟩ = port := by
    intro fam bytes; simp [ipaddr_port, hrt]
  have ha1 : ({ s with errno := EINVAL } : State).addr = some a := ha
  rw [ipaddr_literal_code E s name port m hE hp]
  rw [ipaddr_ipv4_literal_eq E s a name port ha h4, ipaddr_ipv6_literal_eq E s a name port ha h6]
  cases h : parse E AF_INET name <;> cases h2 : parse E AF_INET6 name <;> cases m <;>
    simp [spec_literal, hport, ipaddr_ipv4_literal_eq E _ a name port ha1 h4,
      ipaddr_ipv6_literal_eq E _ a name port ha1 h6, h, h2]

theorem ipaddr_literal_modes_witness :
    sample_env.labels_distinct ∧ sample_state.addr = some ⟨0, ⟨0, 0⟩, []⟩ ∧
    (0 : Int) ≤ 443 ∧ (443 : Int) ≤ 65535 ∧
    0 ≤ (sample_env.inet_pton AF_INET "::1").rc ∧
    0 ≤ (sample_env.inet_pton AF_INET6 "::1").rc ∧
    match spec_literal .PreferIPv4 (parse sample_env AF_INET "::1")
        (parse sample_env AF_INET6 "::1") with
    | some (fam, bytes) =>
      ∃ s1, ipaddr_literal sample_env sample_state "::1" 443
          (Mode.PreferIPv4.code sample_env) = .ret 0 s1 ∧
        s1.addr = some ⟨fam, htons 443, bytes⟩ ∧
        ipaddr_port ⟨fam, htons 443, bytes⟩ = 443
    | none => ipaddr_literal sample_env sample_state "::1" 443
        (Mode.PreferIPv4.code sample_env) = .ret (-1) { sample_state with errno := EINVAL } :=
  ⟨by decide, rfl, by decide, by decide, by decide, by decide,
    ipaddr_literal_modes sample_env sample_state ⟨0, ⟨0, 0⟩, []⟩ "::1" 443 .PreferIPv4
      (by decide) rfl (by decide) (by decide) (by decide) (by decide)⟩

/-- Mode 0 and `IPADDR_PREF_IPV4` take the same arm of the `switch` of `ipaddr_literal`. -/
theorem ipaddr_literal_zero (E : Env) (hE : E.labels_distinct) (s : State) (name : String)
    (port : Int) :
    ipaddr_literal E s name port 0 = ipaddr_literal E s name port E.IPADDR_PREF_IPV4 := by
  obtain ⟨a1, a2, a3, a4, b1, b2, b3, c1, c2, d1⟩ := E.labels_ne hE
  unfold ipaddr_literal
  simp [a2.symm, b1.symm, a3.symm, b2.symm]

/-- Mode 0 and `IPADDR_PREF_IPV4` take the same arm of the selection `switch`. -/
theorem mode_switch_zero {α : Type} (E : Env) (hE : E.labels_distinct) (ipv4 ipv6 : Option α) :
    mode_switch E 0 ipv4 ipv6 = mode_switch E E.IPADDR_PREF_IPV4 ipv4 ipv6 := by
  obtain ⟨a1, a2, a3, a4, b1, b2, b3, c1, c2, d1⟩ := E.labels_ne hE
  unfold mode_switch
  simp [a2.symm, b1.symm, a3.symm, b2.symm]

/-- C9. Mode 0 behaves as `IPADDR_PREF_IPV4`: on every machine, state, name (present
or absent), port and deadline, each of `ipaddr_literal`, `ipaddr_local` and
`ipaddr_remote` ends the same way, in the same state, for the two mode values. -/
theorem mode_zero_is_pref_ipv4 (E : Env) (hE : E.labels_distinct) (s : State)
    (name : String) (lname : Option String) (port deadline : Int) :
    ipaddr_literal E s name port 0 = ipaddr_literal E s name port E.IPADDR_PREF_IPV4 ∧
    ipaddr_local E s lname port 0 = ipaddr_local E s lname port E.IPADDR_PREF_IPV4 ∧
    ipaddr_remote E s name port 0 deadline =
      ipaddr_remote E s name port E.IPADDR_PREF_IPV4 deadline := by
  refine ⟨ipaddr_literal_zero E hE s name port, ?_, ?_⟩
  · cases lname with
    | none => simp [ipaddr_local, ipaddr_ipany]
    | some n =>
      simp only [ipaddr_local, choose_and_store, ipaddr_literal_zero E hE s n port,
        mode_switch_zero E hE]
  · simp only [ipaddr_remote, choose_and_store, ipaddr_literal_zero E hE s name port,
      mode_switch_zero E hE]

theorem mode_zero_is_pref_ipv4_witness :
    sample_env.labels_distinct ∧
    ipaddr_literal sample_env sample_state "example.org" 80 0 =
      ipaddr_literal sample_env sample_state "example.org" 80 sample_env.IPADDR_PREF_IPV4 ∧
    ipaddr_local sample_env sample_state (some "lo") 80 0 =
      ipaddr_local sample_env sample_state (some "lo") 80 sample_env.IPADDR_PREF_IPV4 ∧
    ipaddr_remote sample_env sample_state "example.org" 80 0 1000 =
      ipaddr_remote sample_env sample_state "example.org" 80 sample_env.IPADDR_PREF_IPV4 1000 :=
  ⟨by decide, mode_zero_is_pref_ipv4 sample_env (by decide) sample_state "example.org"
    (some "lo") 80 1000⟩

/-- C7. A port outside [0, 65535] with a present name: `ipaddr_literal` refuses the
port, and `ipaddr_local` takes that for "not a literal" and goes on to the interfaces.
For the interface `lo` and port 70000 it returns 0 with port 70000 mod 65536 = 4464;
for a name no interface has, and for a numeric literal, it returns -1 with `ENODEV`.
Only the absent name gives `EINVAL`. -/
theorem ipaddr_local_bad_port :
    ipaddr_local sample_env sample_state (some "lo") 70000 0 =
      .ret 0 { sample_state with addr := some { lo4 with port := ⟨17, 112⟩ }, errno := EINVAL } ∧
    ipaddr_port { lo4 with port := ⟨17, 112⟩ } = 4464 ∧
    ipaddr_local sample_env sample_state (some "wlan9") 70000 0 =
      .ret (-1) { sample_state with errno := ENODEV } ∧
    ipaddr_local sample_env sample_state (some "127.0.0.1") (-1) 0 =
      .ret (-1) { sample_state with errno := ENODEV } ∧
    ipaddr_local sample_env sample_state none 70000 0 =
      .ret (-1) { sample_state with errno := EINVAL } := by
  decide

/-- C8. A query whose first answer is "try again" and whose wait times out:
`ipaddr_remote` returns -1 with the wait's error from inside the loop, and the query it
opened is still open: the count of open queries is 1 after the call and 0 before it. -/
theorem ipaddr_remote_timeout_leaks_query :
    sample_state.queries = 0 ∧
    ipaddr_remote sample_env sample_state "slow.example" 80 0 1000 =
      .ret (-1) ⟨sample_state.addr, ETIMEDOUT, true, true, true, 1⟩ := by
  decide

/-- C10, as stated, fails: 99 is none of the five mode values, yet `ipaddr_local` with
an absent name returns 0 with the IPv6 wildcard, and `ipaddr_literal` with a port out of
range returns -1 with `EINVAL`. -/
theorem invalid_mode_returns :
    ¬ sample_env.valid_mode 99 ∧
    ipaddr_local sample_env sample_state none 80 99 =
      .ret 0 { sample_state with addr := some ⟨AF_INET6, htons 80, in6addr_any⟩ } ∧
    ipaddr_literal sample_env sample_state "lo" 70000 99 =
      .ret (-1) { sample_state with errno := EINVAL } := by
  refine ⟨?_, ?_, ?_⟩
  · unfold Env.valid_mode; decide
  · decide
  · decide

/-- The selection `switch` hits `default:` on a mode value that is not valid. -/
theorem mode_switch_invalid {α : Type} (E : Env) (mode : Int) (hm : ¬ E.valid_mode mode)
    (ipv4 ipv6 : Option α) : mode_switch E mode ipv4 ipv6 = none := by
  unfold Env.valid_mode at hm
  simp only [not_or] at hm
  obtain ⟨m0, m1, m2, m3, m4⟩ := hm
  simp [mode_switch, m0, m1, m2, m3, m4]

/-- The `switch` of `ipaddr_literal` on a mode value that is not valid: the guard on
`addr` and `port` comes first, then `default:`. -/
theorem ipaddr_literal_invalid (E : Env) (s : State) (name : String) (port mode : Int)
    (hm : ¬ E.valid_mode mode) :
    ipaddr_literal E s name port mode =
      if s.addr = none ∨ port < 0 ∨ port > 0xffff then .ret (-1) { s with errno := EINVAL }
      else .abort := by
  unfold Env.valid_mode at hm
  simp only [not_or] at hm
  obtain ⟨m0, m1, m2, m3, m4⟩ := hm
  simp [ipaddr_literal, m0, m1, m2, m3, m4]

/-- C10, amended. On a mode value that is none of the five valid ones:
`ipaddr_literal` fails its `default:` assertion when the output address is non-NULL and
the port is in [0, 65535], and otherwise returns -1 with `EINVAL` before it looks at
the mode; `ipaddr_local` with a name present always ends in a failed assertion;
`ipaddr_remote` ends in a failed assertion whenever the output address is non-NULL. -/
theorem invalid_mode_aborts (E : Env) (s : State) (name : String) (port mode deadline : Int)
    (hm : ¬ E.valid_mode mode) :
    (s.addr ≠ none → 0 ≤ port → port ≤ 65535 → ipaddr_literal E s name port mode = .abort) ∧
    (s.addr = none ∨ port < 0 ∨ 65535 < port →
      ipaddr_literal E s name port mode = .ret (-1) { s with errno := EINVAL }) ∧
    ipaddr_local E s (some name) port mode = .abort ∧
    (s.addr ≠ none → ipaddr_remote E s name port mode deadline = .abort) := by
  have hl := ipaddr_literal_invalid E s name port mode hm
  refine ⟨?_, ?_, ?_, ?_⟩
  · intro ha h0 h1
    rw [hl, if_neg]
    simp only [not_or]
    exact ⟨ha, by omega, by omega⟩
  · intro h
    rw [hl, if_pos h]
  · simp only [ipaddr_local, choose_and_store, hl, mode_switch_invalid E mode hm]
    split_ifs <;> simp
    split <;> simp
  · intro ha
    simp only [ipaddr_remote, choose_and_store, hl, mode_switch_invalid E mode hm]
    by_cases hp : port < 0 ∨ port > 0xffff
    · have hp2 : ¬ (port ≥ 0 ∧ port ≤ 0xffff) := by omega
      rw [if_pos (Or.inr hp)]
      simp only [hp2]
      simp
      split <;> simp
    · rw [if_neg (by simp only [not_or]; exact ⟨ha, by omega, by omega⟩)]

theorem invalid_mode_aborts_witness :
    ¬ sample_env.valid_mode 99 ∧
    (sample_state.addr ≠ none → (0 : Int) ≤ 80 → (80 : Int) ≤ 65535 →
      ipaddr_literal sample_env sample_state "lo" 80 99 = .abort) ∧
    (sample_state.addr = none ∨ (80 : Int) < 0 ∨ (65535 : Int) < 80 →
      ipaddr_literal sample_env sample_state "lo" 80 99 =
        .ret (-1) { sample_state with errno := EINVAL }) ∧
    ipaddr_local sample_env sample_state (some "lo") 80 99 = .abort ∧
    (sample_state.addr ≠ none →
      ipaddr_remote sample_env sample_state "lo" 80 99 1000 = .abort) :=
  ⟨by unfold Env.valid_mode; decide,
    invalid_mode_aborts sample_env sample_state "lo" 80 99 1000
      (by unfold Env.valid_mode; decide)⟩

/-- A name that neither numeric parse accepts: `ipaddr_literal` returns -1 with
`EINVAL` under every valid mode. -/
theorem ipaddr_literal_not_literal (E : Env) (s : State) (a : ipaddr) (name : String)
    (port : Int) (m : Mode) (hE : E.labels_distinct) (ha : s.addr = some a)
    (h0 : 0 ≤ port) (h1 : port ≤ 65535)
    (h4 : (E.inet_pton AF_INET name).rc = 0) (h6 : (E.inet_pton AF_INET6 name).rc = 0) :
    ipaddr_literal E s name port (m.code E) = .ret (-1) { s with errno := EINVAL } := by
  have hp : ¬ (s.addr = none ∨ port < 0 ∨ port > 0xffff) := by
    rw [ha]; simp; omega
  have e4 : ∀ s1 : State, ipaddr_ipv4_literal E s1 name port =
      .ret (-1) { s1 with errno := EINVAL } := by
    intro s1; simp [ipaddr_ipv4_literal, h4]
  have e6 : ∀ s1 : State, ipaddr_ipv6_literal E s1 name port =
      .ret (-1) { s1 with errno := EINVAL } := by
    intro s1; simp [ipaddr_ipv6_literal, h6]
  rw [ipaddr_literal_code E s name port m hE hp]
  cases m <;> simp [e4, e6]

/-- The table picks one of the two candidates it is given. -/
theorem spec_select_mem {α : Type} (m : Mode) (v4 v6 : Option α) (c : α)
    (h : spec_select m v4 v6 = some c) : v4 = some c ∨ v6 = some c := by
  cases m <;> cases v4 <;> cases v6 <;> simp_all [spec_select]

/-- The selection `switch` followed by the copy-out is the selection table followed
by the copy-out. -/
theorem switch_store {α : Type} (E : Env) (hE : E.labels_distinct) (m : Mode)
    (src : α → Option ipaddr) (release : State → State) (s : State) (port err : Int)
    (v4 v6 : Option α) :
    choose_and_store E (m.code E) src release s port err v4 v6 =
    store_choice src release s port err (spec_select m v4 v6) none := by
  obtain ⟨a1, a2, a3, a4, b1, b2, b3, c1, c2, d1⟩ := E.labels_ne hE
  cases m <;> cases v4 <;> cases v6 <;>
    simp [choose_and_store, mode_switch, Mode.code, spec_select, store_choice, a1, a2, a3, a4, b1, b2, b3,
      c1, c2, d1, a1.symm, a2.symm, a3.symm, a4.symm, b1.symm, b2.symm, b3.symm, c1.symm,
      c2.symm, d1.symm]

theorem filter_length_le_one_cons {α : Type} (p : α → Bool) (x : α) (l : List α)
    (h : ((x :: l).filter p).length ≤ 1) :
    (l.filter p).length ≤ 1 ∧ (p x = true → ∀ y ∈ l, p y = false) := by
  rw [List.filter_cons] at h
  by_cases hx : p x = true
  · rw [if_pos hx, List.length_cons] at h
    have h0 : (l.filter p).length = 0 := by omega
    have hnil := List.length_eq_zero.mp h0
    refine ⟨by omega, fun _ y hy => ?_⟩
    have := (List.filter_eq_nil_iff.mp hnil) y hy
    simpa using this
  · rw [if_neg hx] at h
    exact ⟨h, fun hx2 => absurd hx2 hx⟩

/-- The interface loop, when the list holds at most one address of each family for
the name: it ends without a failed assertion, with the first match of each family
(or the candidate it was started with). -/
theorem ipaddr_local_scan_eq (name : String) (l : List ifaddrs) :
    ∀ (ipv4 ipv6 : Option ifaddrs),
    (ipv4.isSome → ∀ i ∈ l, ifa_match name AF_INET i = false) →
    (ipv6.isSome → ∀ i ∈ l, ifa_match name AF_INET6 i = false) →
    (l.filter (ifa_match name AF_INET)).length ≤ 1 →
    (l.filter (ifa_match name AF_INET6)).length ≤ 1 →
    ipaddr_local_scan name l ipv4 ipv6 =
      some (ipv4.or (l.find? (ifa_match name AF_INET)),
        ipv6.or (l.find? (ifa_match name AF_INET6))) := by
  induction l with
  | nil => intro ipv4 ipv6 _ _ _ _; simp [ipaddr_local_scan]
  | cons it rest ih =>
    intro ipv4 ipv6 n4 n6 c4 c6
    obtain ⟨c4r, u4⟩ := filter_length_le_one_cons _ _ _ c4
    obtain ⟨c6r, u6⟩ := filter_length_le_one_cons _ _ _ c6
    have n4r : ipv4.isSome → ∀ i ∈ rest, ifa_match name AF_INET i = false :=
      fun h i hi => n4 h i (List.mem_cons_of_mem _ hi)
    have n6r : ipv6.isSome → ∀ i ∈ rest, ifa_match name AF_INET6 i = false :=
      fun h i hi => n6 h i (List.mem_cons_of_mem _ hi)
    have hne : AF_INET ≠ AF_INET6 := by decide
    unfold ipaddr_local_scan
    cases hadr : it.ifa_addr with
    | none =>
      have m4 : ifa_match name AF_INET it = false := by simp [ifa_match, hadr]
      have m6 : ifa_match name AF_INET6 it = false := by simp [ifa_match, hadr]
      simp only [List.find?_cons, m4, m6]
      exact ih ipv4 ipv6 n4r n6r c4r c6r
    | some sa =>
      by_cases hn : it.ifa_name = name
      · by_cases f4 : sa.family = AF_INET
        · have m4 : ifa_match name AF_INET it = true := by simp [ifa_match, hadr, hn, f4]
          have m6 : ifa_match name AF_INET6 it = false := by
            simp [ifa_match, hadr, hn, f4, hne]
          have h4none : ipv4 = none := by
            cases ipv4 with
            | none => rfl
            | some x =>
              have := n4 rfl it (List.mem_cons_self _ _)
              rw [m4] at this; exact absurd this (by decide)
          subst h4none
          simp only [List.find?_cons, m4, m6, hn, f4, ne_eq, not_true_eq_false, if_false,
            if_true, Option.isSome_none, Option.isSome_some, true_and, Option.none_or,
            Bool.false_eq_true]
          cases h6 : ipv6 with
          | some y => simp
          | none =>
            simp only [Option.isSome_none, Bool.false_eq_true, if_false, Option.none_or]
            rw [ih (some it) none (fun _ => u4 m4) (fun h => by simp at h) c4r c6r]
            simp
        · by_cases f6 : sa.family = AF_INET6
          · have m4 : ifa_match name AF_INET it = false := by simp [ifa_match, hadr, hn, f4]
            have m6 : ifa_match name AF_INET6 it = true := by
              simp [ifa_match, hadr, hn, f6]
            have h6none : ipv6 = none := by
              cases ipv6 with
              | none => rfl
              | some x =>
                have := n6 rfl it (List.mem_cons_self _ _)
                rw [m6] at this; exact absurd this (by decide)
            subst h6none
            simp only [List.find?_cons, m4, m6, hn, f4, f6, hne.symm, ne_eq,
              not_true_eq_false, if_false, if_true, Option.isSome_none, Option.isSome_some,
              and_true, Option.none_or, Bool.false_eq_true]
            cases h4 : ipv4 with
            | some y => simp
            | none =>
              simp only [Option.isSome_none, Bool.false_eq_true, if_false, Option.none_or]
              rw [ih none (some it) (fun h => by simp at h) (fun _ => u6 m6) c4r c6r]
              simp
          · have m4 : ifa_match name AF_INET it = false := by simp [ifa_match, hadr, hn, f4]
            have m6 : ifa_match name AF_INET6 it = false := by
              simp [ifa_match, hadr, hn, f6]
            simp only [List.find?_cons, m4, m6, hn, f4, f6, ne_eq, not_true_eq_false,
              if_false]
            by_cases hb : ipv4.isSome = true ∧ ipv6.isSome = true
            · rw [if_pos hb]
              obtain ⟨x, hx⟩ := Option.isSome_iff_exists.mp hb.1
              obtain ⟨y, hy⟩ := Option.isSome_iff_exists.mp hb.2
              simp [hx, hy]
            · rw [if_neg hb]
              exact ih ipv4 ipv6 n4r n6r c4r c6r
      · have m4 : ifa_match name AF_INET it = false := by simp [ifa_match, hadr, hn]
        have m6 : ifa_match name AF_INET6 it = false := by simp [ifa_match, hadr, hn]
        simp only [List.find?_cons, m4, m6, hn, ne_eq, not_false_eq_true, if_true]
        exact ih ipv4 ipv6 n4r n6r c4r c6r

/-- C3, as stated, fails on the empty interface list: the name `eth0` is no numeric
literal, the list holds at most one address of each family for it and no interface
matches it, and `ipaddr_local` ends in the failed assertion `dsock_assert(ifaces)`
instead of returning -1 with `ENODEV`. -/
theorem ipaddr_local_no_interfaces :
    (sample_env.inet_pton AF_INET "eth0").rc = 0 ∧
    (sample_env.inet_pton AF_INET6 "eth0").rc = 0 ∧
    (([] : List ifaddrs).filter (ifa_match "eth0" AF_INET)).length ≤ 1 ∧
    (([] : List ifaddrs).filter (ifa_match "eth0" AF_INET6)).length ≤ 1 ∧
    ipaddr_local { sample_env with getifaddrs := (0, []) } sample_state (some "eth0") 80 0 =
      .abort ∧
    ipaddr_local { sample_env with getifaddrs := (0, []) } sample_state (some "eth0") 80 0 ≠
      .ret (-1) { sample_state with errno := ENODEV } := by
  decide

/-- C3, amended. For a present name that neither numeric parse accepts, a port in
[0, 65535], a valid mode and a non-empty interface list with at most one IPv4 and at
most one IPv6 address for the name, `ipaddr_local` chooses between the name's IPv4 and
IPv6 addresses by the selection table, returns 0 with the family and host bytes of the
chosen interface address and the requested port, and returns -1 with `ENODEV`, the
output address untouched, exactly when the table says "fail": no interface matches the
name, or none with a family the mode allows. -/
theorem ipaddr_local_interface (E : Env) (s : State) (a : ipaddr) (name : String)
    (port : Int) (m : Mode) (ifaces : List ifaddrs)
    (hE : E.labels_distinct) (ha : s.addr = some a) (h0 : 0 ≤ port) (h1 : port ≤ 65535)
    (h4 : (E.inet_pton AF_INET name).rc = 0) (h6 : (E.inet_pton AF_INET6 name).rc = 0)
    (hgi : E.getifaddrs = (0, ifaces)) (hne : ifaces ≠ [])
    (c4 : (ifaces.filter (ifa_match name AF_INET)).length ≤ 1)
    (c6 : (ifaces.filter (ifa_match name AF_INET6)).length ≤ 1) :
    match spec_select m (ifaces.find? (ifa_match name AF_INET))
        (ifaces.find? (ifa_match name AF_INET6)) with
    | some i =>
      ∃ sa s1, i.ifa_name = name ∧ i.ifa_addr = some sa ∧
        ipaddr_local E s (some name) port (m.code E) = .ret 0 s1 ∧
        s1.addr = some ⟨sa.family, htons port, sa.host⟩ ∧
        ipaddr_port ⟨sa.family, htons port, sa.host⟩ = port
    | none =>
      ipaddr_local E s (some name) port (m.code E) = .ret (-1) { s with errno := ENODEV } := by
  have hlit := ipaddr_literal_not_literal E s a name port m hE ha h0 h1 h4 h6
  have hscan := ipaddr_local_scan_eq name ifaces none none (fun h => by simp at h)
    (fun h => by simp at h) c4 c6
  have hrt := ntohs_htons port h0 h1
  have hrun : ipaddr_local E s (some name) port (m.code E) =
      store_choice (fun i : ifaddrs => i.ifa_addr) id { s with errno := EINVAL } port ENODEV
        (spec_select m (ifaces.find? (ifa_match name AF_INET))
          (ifaces.find? (ifa_match name AF_INET6))) none := by
    simp only [ipaddr_local, hlit, hgi, hscan, Option.none_or, switch_store E hE]
    simp [hne]
  rw [hrun]
  cases hsel : spec_select m (ifaces.find? (ifa_match name AF_INET))
      (ifaces.find? (ifa_match name AF_INET6)) with
  | none => simp [store_choice]
  | some i =>
    have hm : ∃ af, ifa_match name af i = true := by
      rcases spec_select_mem m _ _ i hsel with h | h
      · exact ⟨_, List.find?_some h⟩
      · exact ⟨_, List.find?_some h⟩
    obtain ⟨af, hmatch⟩ := hm
    unfold ifa_match at hmatch
    cases hadr : i.ifa_addr with
    | none => simp [hadr] at hmatch
    | some sa =>
      simp only [hadr, decide_eq_true_eq] at hmatch
      refine ⟨sa, { s with addr := some ⟨sa.family, htons port, sa.host⟩, errno := EINVAL },
        hmatch.1, hadr, ?_, rfl, ?_⟩
      · simp [store_choice, hadr, ha]
      · simp [ipaddr_port, hrt]

theorem ipaddr_local_interface_witness :
    sample_env.labels_distinct ∧ sample_state.addr = some ⟨0, ⟨0, 0⟩, []⟩ ∧
    (0 : Int) ≤ 8080 ∧ (8080 : Int) ≤ 65535 ∧
    (sample_env.inet_pton AF_INET "lo").rc = 0 ∧
    (sample_env.inet_pton AF_INET6 "lo").rc = 0 ∧
    sample_env.getifaddrs = (0, sample_env.getifaddrs.2) ∧ sample_env.getifaddrs.2 ≠ [] ∧
    ((sample_env.getifaddrs.2).filter (ifa_match "lo" AF_INET)).length ≤ 1 ∧
    ((sample_env.getifaddrs.2).filter (ifa_match "lo" AF_INET6)).length ≤ 1 ∧
    match spec_select .PreferIPv6 ((sample_env.getifaddrs.2).find? (ifa_match "lo" AF_INET))
        ((sample_env.getifaddrs.2).find? (ifa_match "lo" AF_INET6)) with
    | some i =>
      ∃ sa s1, i.ifa_name = "lo" ∧ i.ifa_addr = some sa ∧
        ipaddr_local sample_env sample_state (some "lo") 8080
          (Mode.PreferIPv6.code sample_env) = .ret 0 s1 ∧
        s1.addr = some ⟨sa.family, htons 8080, sa.host⟩ ∧
        ipaddr_port ⟨sa.family, htons 8080, sa.host⟩ = 8080
    | none =>
      ipaddr_local sample_env sample_state (some "lo") 8080
        (Mode.PreferIPv6.code sample_env) = .ret (-1) { sample_state with errno := ENODEV } :=
  ⟨by decide, rfl, by decide, by decide, by decide, by decide, rfl, by decide, by decide,
    by decide,
    ipaddr_local_interface sample_env sample_state ⟨0, ⟨0, 0⟩, []⟩ "lo" 8080 .PreferIPv6
      sample_env.getifaddrs.2 (by decide) rfl (by decide) (by decide) (by decide) (by decide)
      rfl (by decide) (by decide) (by decide)⟩

/-- The first entry of a family, answer by answer. -/
theorem first_entry_cons (af : Int) (st : DnsStep) (rest : List DnsStep) :
    first_entry af (st :: rest) =
      match st.entry? with
      | some e => if e.ai_family = af then some e else first_entry af rest
      | none => first_entry af rest := by
  unfold first_entry
  cases h : st.entry? with
  | none => simp [List.filterMap_cons, h]
  | some e =>
    by_cases hf : e.ai_family = af <;> simp [List.filterMap_cons, h, List.find?_cons, hf]

/-- An entry found as the first of its family has that family and comes from an
answer that carried it. -/
theorem first_entry_some (af : Int) (steps : List DnsStep) (e : addrinfo)
    (h : first_entry af steps = some e) :
    e.ai_family = af ∧ ∃ st ∈ steps, st.entry? = some e := by
  unfold first_entry at h
  refine ⟨by simpa using List.find?_some h, ?_⟩
  have hmem := List.mem_of_find?_eq_some h
  rw [List.mem_filterMap] at hmem
  exact hmem

/-- The loop of `ipaddr_remote` on a query with no answers left. -/
theorem dns_loop_nil (deadline : Int) (s : State) (ipv4 ipv6 : Option addrinfo) :
    dns_loop deadline [] s ipv4 ipv6 = .brk ipv4 ipv6 s := rfl

/-- One turn of the loop of `ipaddr_remote`. -/
theorem dns_loop_cons (deadline : Int) (st : DnsStep) (rest : List DnsStep) (s : State)
    (ipv4 ipv6 : Option addrinfo) :
    dns_loop deadline (st :: rest) s ipv4 ipv6 =
      if st.rc = EAGAIN then
        if ¬ (st.pollfd ≥ 0) then .abort
        else
          let s1 := { s with errno := (st.fdin deadline).2 }
          if (st.fdin deadline).1 < 0 then .ret (-1) s1
          else dns_loop deadline rest s1 ipv4 ipv6
      else if st.rc = ENOENT then .brk ipv4 ipv6 s
      else
        let ipv4 := match ipv4, st.it with
          | none, some e => if e.ai_family = AF_INET then some e else none
          | v, _ => v
        let ipv6 := match ipv6, st.it with
          | none, some e => if e.ai_family = AF_INET6 then some e else none
          | v, _ => v
        if ipv4.isSome ∧ ipv6.isSome then .brk ipv4 ipv6 s
        else dns_loop deadline rest s ipv4 ipv6 := rfl

/-- The DNS loop on answers that are entries and successful waits, ended by "no more
entries": it leaves through `break` with the first entry of each family (or the
candidate it was started with), and changes nothing in the state but `errno`. -/
theorem dns_loop_eq (deadline : Int) (fin : List DnsStep)
    (hfin : ∀ st, fin.head? = some st → st.rc = ENOENT) (steps : List DnsStep) :
    ∀ (s : State) (ipv4 ipv6 : Option addrinfo),
    (∀ st ∈ steps, st.again_ok deadline ∨ st.is_entry) →
    ∃ s1, dns_loop deadline (steps ++ fin) s ipv4 ipv6 =
        .brk (ipv4.or (first_entry AF_INET steps)) (ipv6.or (first_entry AF_INET6 steps)) s1 ∧
      s1.addr = s.addr ∧ s1.queries = s.queries := by
  induction steps with
  | nil =>
    intro s ipv4 ipv6 _
    refine ⟨s, ?_, rfl, rfl⟩
    have h0 : ∀ af, first_entry af [] = none := fun af => rfl
    simp only [List.nil_append, h0, Option.or_none]
    cases fin with
    | nil => rfl
    | cons st rest =>
      have hrc := hfin st rfl
      have hne : ¬ (st.rc = EAGAIN) := by rw [hrc]; decide
      rw [dns_loop_cons, if_neg hne, if_pos hrc]
  | cons st rest ih =>
    intro s ipv4 ipv6 hall
    have hrest : ∀ st ∈ rest, st.again_ok deadline ∨ st.is_entry :=
      fun x hx => hall x (List.mem_cons_of_mem _ hx)
    rw [List.cons_append, dns_loop_cons, first_entry_cons, first_entry_cons]
    rcases hall st (List.mem_cons_self _ _) with hag | hent
    · obtain ⟨hrc, hfd, hw⟩ := hag
      have hentry : st.entry? = none := by
        have : ¬ (EAGAIN = (0 : Int)) := by decide
        simp [DnsStep.entry?, hrc, this]
      obtain ⟨s1, hrun, hadr, hq⟩ := ih { s with errno := (st.fdin deadline).2 } ipv4 ipv6 hrest
      refine ⟨s1, ?_, hadr, hq⟩
      rw [hentry, if_pos hrc, if_neg (by omega)]
      simp only []
      rw [if_neg (by omega)]
      exact hrun
    · obtain ⟨hrc, e, hit, hfam, _⟩ := hent
      have hentry : st.entry? = some e := by simp [DnsStep.entry?, hrc, hit]
      have hn1 : ¬ (st.rc = EAGAIN) := by rw [hrc]; decide
      have hn2 : ¬ (st.rc = ENOENT) := by rw [hrc]; decide
      have h46 : ¬ (AF_INET = AF_INET6) := by decide
      have h64 : ¬ (AF_INET6 = AF_INET) := by decide
      rw [hentry, if_neg hn1, if_neg hn2, hit]
      cases ipv4 with
      | none =>
        cases ipv6 with
        | none =>
          rcases hfam with hf | hf
          · obtain ⟨s1, hrun, hadr, hq⟩ := ih s (some e) none hrest
            refine ⟨s1, ?_, hadr, hq⟩
            simpa [hf, h46] using hrun
          · obtain ⟨s1, hrun, hadr, hq⟩ := ih s none (some e) hrest
            refine ⟨s1, ?_, hadr, hq⟩
            simpa [hf, h64] using hrun
        | some y =>
          by_cases hf : e.ai_family = AF_INET
          · exact ⟨s, by simp [hf], rfl, rfl⟩
          · obtain ⟨s1, hrun, hadr, hq⟩ := ih s none (some y) hrest
            refine ⟨s1, ?_, hadr, hq⟩
            simpa [hf] using hrun
      | some x =>
        cases ipv6 with
        | none =>
          by_cases hf : e.ai_family = AF_INET6
          · exact ⟨s, by simp [hf], rfl, rfl⟩
          · obtain ⟨s1, hrun, hadr, hq⟩ := ih s (some x) none hrest
            refine ⟨s1, ?_, hadr, hq⟩
            simpa [hf] using hrun
        | some y => exact ⟨s, by simp, rfl, rfl⟩

/-- The configuration is there after lines 246-254 when it was cached or when the
three loaders succeed; nothing else changes. -/
theorem load_dns_conf_ok (E : Env) (s : State)
    (hconf : s.dsock_dns_conf = true ∨
      (E.dns_resconf_local = true ∧ E.dns_hosts_local = true ∧ E.dns_hints_local = true)) :
    ∃ s2, load_dns_conf E s = some s2 ∧ s2.addr = s.addr ∧ s2.queries = s.queries ∧
      s2.errno = s.errno := by
  unfold load_dns_conf
  by_cases hc : s.dsock_dns_conf = true
  · exact ⟨s, by simp [hc], rfl, rfl, rfl⟩
  · rcases hconf with h | ⟨h1, h2, h3⟩
    · exact absurd h hc
    · exact ⟨{ s with dsock_dns_conf := true, dsock_dns_hosts := true,
                        dsock_dns_hints := true },
        by simp [hc, h1, h2, h3], rfl, rfl, rfl⟩

/-- C1. For a hostname that neither numeric parse accepts, a port in [0, 65535], a
valid mode, and a query whose answers are entries of family IPv4 or IPv6 and "try
again" signals whose waits succeed, ended by "no more entries", `ipaddr_remote` picks
between the first IPv4 entry and the first IPv6 entry as the selection table says. When
the table picks an entry it returns 0 and the output address holds that entry's family
and host bytes with the requested port; when the table says "fail" it returns -1 with
`EADDRNOTAVAIL` and leaves the output address as it was. In both cases the query it
opened is closed again. -/
theorem ipaddr_remote_selection (E : Env) (s : State) (a : ipaddr) (name : String)
    (port deadline : Int) (m : Mode) (steps fin : List DnsStep)
    (hE : E.labels_distinct) (ha : s.addr = some a) (h0 : 0 ≤ port) (h1 : port ≤ 65535)
    (h4 : (E.inet_pton AF_INET name).rc = 0) (h6 : (E.inet_pton AF_INET6 name).rc = 0)
    (hconf : s.dsock_dns_conf = true ∨
      (E.dns_resconf_local = true ∧ E.dns_hosts_local = true ∧ E.dns_hints_local = true))
    (hres : E.dns_res_open = true)
    (hopen : E.dns_ai_open name port = some (steps ++ fin))
    (hsteps : ∀ st ∈ steps, st.again_ok deadline ∨ st.is_entry)
    (hfin : ∀ st, fin.head? = some st → st.rc = ENOENT) :
    match spec_select m (first_entry AF_INET steps) (first_entry AF_INET6 steps) with
    | some e =>
      ∃ s1, ipaddr_remote E s name port (m.code E) deadline = .ret 0 s1 ∧
        s1.addr = some ⟨e.ai_family, htons port, e.ai_addr.host⟩ ∧
        ipaddr_port ⟨e.ai_family, htons port, e.ai_addr.host⟩ = port ∧
        s1.queries = s.queries
    | none =>
      ∃ s1, ipaddr_remote E s name port (m.code E) deadline = .ret (-1) s1 ∧
        s1.errno = EADDRNOTAVAIL ∧ s1.addr = s.addr ∧ s1.queries = s.queries := by
  have hlit := ipaddr_literal_not_literal E s a name port m hE ha h0 h1 h4 h6
  obtain ⟨s2, hload, hadr2, hq2, _⟩ := load_dns_conf_ok E { s with errno := EINVAL } hconf
  obtain ⟨s4, hloop, hadr4, hq4⟩ := dns_loop_eq deadline fin hfin steps
    { s2 with queries := s2.queries + 1 } none none hsteps
  have hrt := ntohs_htons port h0 h1
  have hport : port ≥ 0 ∧ port ≤ 0xffff := ⟨h0, h1⟩
  have hrun : ipaddr_remote E s name port (m.code E) deadline =
      store_choice (fun e : addrinfo => some e.ai_addr) dns_ai_close s4 port EADDRNOTAVAIL
        (spec_select m (first_entry AF_INET steps) (first_entry AF_INET6 steps)) none := by
    simp only [ipaddr_remote, hlit, hload, hres, hopen, hloop, Option.none_or,
      switch_store E hE]
    simp [hport]
  have hadr : s4.addr = some a := by rw [hadr4]; simpa [ha] using hadr2
  have hq : s4.queries = s.queries + 1 := by rw [hq4]; simpa using hq2
  rw [hrun]
  cases hsel : spec_select m (first_entry AF_INET steps) (first_entry AF_INET6 steps) with
  | none =>
    refine ⟨{ dns_ai_close s4 with errno := EADDRNOTAVAIL }, by simp [store_choice], rfl, ?_, ?_⟩
    · simp [dns_ai_close, hadr, ha]
    · simp [dns_ai_close, hq]
  | some e =>
    have hwf : e.ai_addr.family = e.ai_family := by
      have hfrom : ∃ af, first_entry af steps = some e := by
        rcases spec_select_mem m _ _ e hsel with h | h
        · exact ⟨_, h⟩
        · exact ⟨_, h⟩
      obtain ⟨af, hfe⟩ := hfrom
      obtain ⟨_, st, hst, hentry⟩ := first_entry_some af steps e hfe
      rcases hsteps st hst with hag | hent
      · have : ¬ (EAGAIN = (0 : Int)) := by decide
        simp [DnsStep.entry?, hag.1, this] at hentry
      · obtain ⟨hrc, e2, hit, _, hw⟩ := hent
        have : e2 = e := by simpa [DnsStep.entry?, hrc, hit] using hentry
        rw [← this]; exact hw
    refine ⟨dns_ai_close { s4 with addr := some { e.ai_addr with port := htons port } },
      by simp [store_choice, hadr], ?_, ?_, ?_⟩
    · simp [dns_ai_close, hwf]
    · simp [ipaddr_port, hrt]
    · simp [dns_ai_close, hq]

theorem ipaddr_remote_selection_witness :
    sample_env.labels_distinct ∧ sample_state.addr = some ⟨0, ⟨0, 0⟩, []⟩ ∧
    (0 : Int) ≤ 80 ∧ (80 : Int) ≤ 65535 ∧
    (sample_env.inet_pton AF_INET "example.org").rc = 0 ∧
    (sample_env.inet_pton AF_INET6 "example.org").rc = 0 ∧
    (sample_state.dsock_dns_conf = true ∨ (sample_env.dns_resconf_local = true ∧
      sample_env.dns_hosts_local = true ∧ sample_env.dns_hints_local = true)) ∧
    sample_env.dns_res_open = true ∧
    sample_env.dns_ai_open "example.org" 80 =
      some ([again_ok, entry ⟨AF_INET6, host6⟩, again_ok, entry ⟨AF_INET, host4⟩,
        entry ⟨AF_INET, lo4⟩] ++ []) ∧
    match spec_select .PreferIPv4
        (first_entry AF_INET [again_ok, entry ⟨AF_INET6, host6⟩, again_ok,
          entry ⟨AF_INET, host4⟩, entry ⟨AF_INET, lo4⟩])
        (first_entry AF_INET6 [again_ok, entry ⟨AF_INET6, host6⟩, again_ok,
          entry ⟨AF_INET, host4⟩, entry ⟨AF_INET, lo4⟩]) with
    | some e =>
      ∃ s1, ipaddr_remote sample_env sample_state "example.org" 80
          (Mode.PreferIPv4.code sample_env) 1000 = .ret 0 s1 ∧
        s1.addr = some ⟨e.ai_family, htons 80, e.ai_addr.host⟩ ∧
        ipaddr_port ⟨e.ai_family, htons 80, e.ai_addr.host⟩ = 80 ∧
        s1.queries = sample_state.queries
    | none =>
      ∃ s1, ipaddr_remote sample_env sample_state "example.org" 80
          (Mode.PreferIPv4.code sample_env) 1000 = .ret (-1) s1 ∧
        s1.errno = EADDRNOTAVAIL ∧ s1.addr = sample_state.addr ∧
        s1.queries = sample_state.queries :=
  ⟨by decide, rfl, by decide, by decide, by decide, by decide, Or.inr ⟨rfl, rfl, rfl⟩, rfl,
    rfl,
    ipaddr_remote_selection sample_env sample_state ⟨0, ⟨0, 0⟩, []⟩ "example.org" 80 1000
      .PreferIPv4
      [again_ok, entry ⟨AF_INET6, host6⟩, again_ok, entry ⟨AF_INET, host4⟩,
        entry ⟨AF_INET, lo4⟩] []
      (by decide) rfl (by decide) (by decide) (by decide) (by decide)
      (Or.inr ⟨rfl, rfl, rfl⟩) rfl rfl
      (by
        intro st hst
        simp only [List.mem_cons, List.mem_singleton, List.not_mem_nil, or_false] at hst
        rcases hst with h | h | h | h | h <;> subst h
        · exact Or.inl ⟨rfl, by decide, by decide⟩
        · exact Or.inr ⟨rfl, _, rfl, Or.inr rfl, rfl⟩
        · exact Or.inl ⟨rfl, by decide, by decide⟩
        · exact Or.inr ⟨rfl, _, rfl, Or.inl rfl, rfl⟩
        · exact Or.inr ⟨rfl, _, rfl, Or.inl rfl, rfl⟩)
      (by intro st h; cases h)⟩

end Dsock
